import Mathlib

/-!
Verification development for a ZPL → DPL label-printer translation engine.

The source consists of three TypeScript units:
* `ZplToDplConverter` — text-to-text conversion: a run-length codec for
  `~DG` ASCII-hex graphic payloads (`decompressZplAsciiHex`), a regex-driven
  command scanner over the `^XA...^XZ` label block, and the final script
  assembly (`convert`);
* `DplLayoutPrinterService` — the placed-element path: a two-pass assembler
  (`print`) that first stores images (`I` commands) and then emits layout
  commands, plus the 4-digit position encoder (`toDplPosition`);
* image helpers — `imageToMonochromeBitmap` (RGB-average thresholding) and
  `bitmapToDplHex` (row-major, MSB-first bit packing into uppercase hex).

Strings are modelled as `List Char` (`Str`).  JavaScript numeric behaviour is
modelled exactly on the integer-valued inputs that the translation produces
(`parseInt`/`parseFloat` as leading-digit parsers returning `Option Int`,
with `none` playing the role of `NaN`, and `toFixed(0)`/`toString` as decimal
rendering).  Code that can throw (the codec on a trailing repeat token, the
`FO` handler on a parameter list without a comma) is modelled with `Option`.
-/

/-- Strings are modelled as lists of characters. -/
abbrev Str := List Char

/-- Models `String.prototype.toLowerCase`, restricted to the ASCII range used here. -/
def jsToLower (s : Str) : Str := s.map Char.toLower

/-- Models `String.prototype.toUpperCase`, restricted to the ASCII range used here. -/
def jsToUpper (s : Str) : Str := s.map Char.toUpper

/-- Models `String.prototype.padStart(n, c)`: left-pad with `c` up to length `n`. -/
def jsPadStart (n : Nat) (c : Char) (s : Str) : Str :=
  if n ≤ s.length then s else List.replicate (n - s.length) c ++ s

/-- Fuel-driven digit expansion of `n` in base `b`, least fuel `n + 1`
suffices; mirrors `Number.prototype.toString(b)` for natural numbers
(lower-case letters for digits above 9, via `Nat.digitChar`). -/
def natDigitsGo (b : Nat) : Nat → Nat → Str
  | 0, _ => []
  | fuel + 1, n =>
    if n < b then [Nat.digitChar n]
    else natDigitsGo b fuel (n / b) ++ [Nat.digitChar (n % b)]

/-- Rendering `n.toString(b)` for a natural number `n`. -/
def natDigitsBase (b n : Nat) : Str := natDigitsGo b (n + 1) n

/-- Rendering `v.toFixed(0)` (equivalently `v.toString()`) for an integer-valued
JavaScript number `v`. -/
def intToFixed0 (v : Int) : Str :=
  if v < 0 then '-' :: natDigitsBase 10 v.natAbs else natDigitsBase 10 v.toNat

/-- One byte as `byte.toString(16).padStart(2, '0').toUpperCase()` from `bitmapToDplHex`. -/
def jsHexByte (b : Nat) : Str := jsToUpper (jsPadStart 2 '0' (natDigitsBase 16 b))

/-- ASCII decimal digit test. -/
def isDigitCh (c : Char) : Bool := '0' ≤ c && c ≤ '9'

/-- JavaScript whitespace (the forms reachable in this code base). -/
def isWsCh (c : Char) : Bool := c = ' ' || c = '\t' || c = '\n' || c = '\r'

/-- Value of a run of decimal digit characters. -/
def digitsToNat (s : Str) : Nat := s.foldl (fun a c => a * 10 + (c.toNat - 48)) 0

/-- Models `parseInt(s, 10)`: skip whitespace, optional sign, then the leading run of
decimal digits; `none` models the `NaN` result when no digit is found.  Also
used for `parseFloat` at the call sites where the argument is integer-valued
(a 4-digit position field or an integer style value), where the two functions
coincide. -/
def jsParseInt (s : Str) : Option Int :=
  match s.dropWhile isWsCh with
  | '-' :: rest =>
    let ds := rest.takeWhile isDigitCh
    if ds = [] then none else some (-(digitsToNat ds : Int))
  | '+' :: rest =>
    let ds := rest.takeWhile isDigitCh
    if ds = [] then none else some (digitsToNat ds)
  | rest =>
    let ds := rest.takeWhile isDigitCh
    if ds = [] then none else some (digitsToNat ds)

/-- JavaScript `+` on numbers, with `none` as `NaN` (`NaN` is absorbing). -/
def jsAdd (a b : Option Int) : Option Int :=
  match a, b with
  | some x, some y => some (x + y)
  | _, _ => none

/-- Template interpolation `${v}` of a number: decimal digits, or `"NaN"`. -/
def numToStr (v : Option Int) : Str :=
  match v with
  | none => "NaN".toList
  | some n => intToFixed0 n

/-- Models `String.prototype.split(sep)` for a single-character separator. -/
def splitOnChar (sep : Char) : Str → List Str
  | [] => [[]]
  | c :: rest =>
    match splitOnChar sep rest with
    | [] => [[]]
    | h :: t => if c = sep then [] :: h :: t else (c :: h) :: t

/-- Models `DplLayoutPrinterService.toDplPosition` on an integer-valued CSS pixel
value: `parseFloat(value).toFixed(0).padStart(4, '0')`. -/
def toDplPosition (v : Int) : Str := jsPadStart 4 '0' (intToFixed0 v)

/-- Variant of `toDplPosition` applied to a computed number that may be `NaN` (the
box/line end-coordinate path `toDplPosition((parseFloat(x) + w).toString())`). -/
def numToDpl (v : Option Int) : Str := jsPadStart 4 '0' (numToStr v)

/-! ### Compression codec (`decompressZplAsciiHex`) -/

/-- The `countCharMap` of `decompressZplAsciiHex`: characters `G`..`Y`
(char codes 71..89, built as `70 + i` for `i = 1..19`) map to counts 1..19,
and `g`..`y` (103..121, built as `102 + i`) map to `i * 20` = 20..380.
`none` models a character absent from the map; all stored counts are
positive, so the JS truthiness test `if (countCharMap[char])` coincides with
`isSome`. -/
def countOf (c : Char) : Option Nat :=
  if 'G' ≤ c ∧ c ≤ 'Y' then some (c.toNat - 70)
  else if 'g' ≤ c ∧ c ≤ 'y' then some ((c.toNat - 102) * 20)
  else none

/-- The scan loop of `decompressZplAsciiHex`: a mapped character repeats the
following character `count` times and advances by 2; any other character is
copied and advances by 1.  A mapped character in final position makes the
source read `zplData[i + 1]` out of bounds and throw
(`undefined.repeat`), modelled as `none`. -/
def decompressCore : Str → Option Str
  | [] => some []
  | c :: rest =>
    match countOf c with
    | some cnt =>
      match rest with
      | [] => none
      | r :: rest2 => (decompressCore rest2).map (fun t => List.replicate cnt r ++ t)
    | none => (decompressCore rest).map (fun t => c :: t)

/-- Models `ZplToDplConverter.decompressZplAsciiHex`: the scan loop followed by
`toUpperCase()`. -/
def decompressZplAsciiHex (s : Str) : Option Str :=
  (decompressCore s).map jsToUpper

/-- A well-formed unit of compressed input: either a mapped token character
together with the literal it repeats, or a single passthrough character. -/
inductive ZItem : Type
  | tok : Char → Char → ZItem
  | lit : Char → ZItem
deriving DecidableEq

/-- The characters a `ZItem` contributes to the compressed input. -/
def ZItem.chars : ZItem → Str
  | .tok t l => [t, l]
  | .lit c => [c]

/-- A `ZItem` is well formed when its leading character is classified as the
scan loop would: a `tok` head is in the count map, a `lit` is not. -/
def ZItem.good : ZItem → Bool
  | .tok t _ => (countOf t).isSome
  | .lit c => (countOf c).isNone

/-- The decompressed expansion of a `ZItem` (before upper-casing). -/
def ZItem.expand : ZItem → Str
  | .tok t l => List.replicate ((countOf t).getD 0) l
  | .lit c => [c]

/-- The output length a `ZItem` accounts for: the token count, or 1. -/
def ZItem.cnt : ZItem → Nat
  | .tok t _ => (countOf t).getD 0
  | .lit _ => 1

/-! ### `ZplToDplConverter.convert`: `~DG` image pass -/

/-- Class `\w` of the `~DG` regex: `[A-Za-z0-9_]`. -/
def isWordCh (c : Char) : Bool :=
  ('A' ≤ c && c ≤ 'Z') || ('a' ≤ c && c ≤ 'z') || isDigitCh c || c = '_'

/-- The payload class `[A-Za-z0-9\n\r]` of the `~DG` regex. -/
def isDataCh (c : Char) : Bool :=
  ('A' ≤ c && c ≤ 'Z') || ('a' ≤ c && c ≤ 'z') || isDigitCh c || c = '\n' || c = '\r'

/-- Attempt to match `/~DG(\w+),\d+,\d+,([A-Za-z0-9\n\r]+)/` at the head of
`s`.  Each sub-pattern is a greedy run over a character class that excludes
the following literal `,`, so backtracking never yields a different match:
the maximal run followed by the required literal is the regex behaviour.
Returns the two capture groups and the total matched length. -/
def dgMatchAt (s : Str) : Option (Str × Str × Nat) :=
  match s with
  | '~' :: 'D' :: 'G' :: r0 =>
    let name := r0.takeWhile isWordCh
    if name = [] then none else
    match r0.dropWhile isWordCh with
    | ',' :: r1 =>
      let d1 := r1.takeWhile isDigitCh
      if d1 = [] then none else
      match r1.dropWhile isDigitCh with
      | ',' :: r2 =>
        let d2 := r2.takeWhile isDigitCh
        if d2 = [] then none else
        match r2.dropWhile isDigitCh with
        | ',' :: r3 =>
          let dat := r3.takeWhile isDataCh
          if dat = [] then none
          else some (name, dat, 3 + name.length + 1 + d1.length + 1 + d2.length + 1 + dat.length)
        | _ => none
      | _ => none
    | _ => none
  | _ => none

/-- Models `zplCode.matchAll(dgRegex)`: scan forward for successive non-overlapping
matches, resuming after each match (the `lastIndex` discipline of a global
regex).  Fuel decreases once per examined position; `length + 1` suffices. -/
def dgScan : Nat → Str → List (Str × Str)
  | 0, _ => []
  | fuel + 1, s =>
    match s with
    | [] => []
    | _ :: rest =>
      match dgMatchAt s with
      | some (name, dat, len) => (name, dat) :: dgScan fuel (s.drop len)
      | none => dgScan fuel rest

/-- All `~DG` matches of the input, as (name, raw payload) capture pairs. -/
def dgMatches (zpl : Str) : List (Str × Str) := dgScan (zpl.length + 1) zpl

/-- Models `match[2].replace(/[\n\r]/g, '')`. -/
def stripNL (s : Str) : Str := s.filter (fun c => !(c == '\n' || c == '\r'))

/-- The image-storage loop of `convert`: for each `~DG` match, strip line
breaks, decompress, and append `ID<name>\r<hex>\r`.  A decompression failure
is an uncaught exception in the source (`convert` has no try/catch around
it), so it propagates: the whole fold is `none`. -/
def dgStorageList : List (Str × Str) → Option Str
  | [] => some []
  | (name, dat) :: rest =>
    match decompressZplAsciiHex (stripNL dat) with
    | none => none
    | some hex =>
      match dgStorageList rest with
      | none => none
      | some tail => some ("ID".toList ++ name ++ ['\r'] ++ hex ++ ['\r'] ++ tail)

/-- The assembled `imageStorageScript` of `convert` (up to the propagated
decode exception). -/
def dgStorage (zpl : Str) : Option Str := dgStorageList (dgMatches zpl)

/-! ### `ZplToDplConverter.convert`: label-block command scan -/

/-- First index at or after the current position where `pat` occurs in the
remaining input. -/
def firstOccurAux (pat : Str) : Str → Nat → Option Nat
  | [], i => if pat.isPrefixOf [] then some i else none
  | c :: rest, i =>
    if pat.isPrefixOf (c :: rest) then some i else firstOccurAux pat rest (i + 1)

/-- Models `zplCode.match(/\^XA([\s\S]*?)\^XZ/)`, capture group 1: the lazy content
between the first `^XA` and the first `^XZ` after it.  (If the first `^XA`
has no `^XZ` at or after its end, no later start position can have one
either, so the whole match fails.) -/
def labelContent (zpl : Str) : Option Str :=
  match firstOccurAux ("^XA".toList) zpl 0 with
  | none => none
  | some i =>
    let after := zpl.drop (i + 3)
    match firstOccurAux ("^XZ".toList) after 0 with
    | none => none
    | some j => some (after.take j)

/-- Opcode class `[A-Z0-9]` of the command regex. -/
def isCmdChar (c : Char) : Bool := ('A' ≤ c && c ≤ 'Z') || isDigitCh c

/-- The lazy parameter scan `([^~^]*?)(?=\^|$)`: grow the parameter run one
`[^~^]` character at a time until the lookahead (`^` or end of input)
succeeds.  Hitting `~` first means the lookahead can never succeed from this
start position, so the whole command match fails there (`none`). -/
def scanParamsL : Str → Option Str
  | [] => some []
  | c :: rest =>
    if c = '^' then some []
    else if c = '~' then none
    else (scanParamsL rest).map (fun t => c :: t)

/-- Attempt to match `/\^([A-Z0-9]{2})([^~^]*?)(?=\^|$)/` at the head of the
remaining input, returning opcode and parameter captures. -/
def matchCmdAt : Str → Option (Str × Str)
  | '^' :: c1 :: c2 :: rest =>
    if isCmdChar c1 && isCmdChar c2 then
      (scanParamsL rest).map (fun ps => ([c1, c2], ps))
    else none
  | _ => none

/-- A parsed label command: source offset (`match.index`), two-character
opcode (`match[1]`) and raw parameter text (`match[2]`). -/
structure PCmd : Type where
  idx : Nat
  op : Str
  params : Str
deriving DecidableEq

/-- Models `labelContent.matchAll(zplCommandRegex)`: scan forward position by
position; after a successful match (which consumes `3 + params.length`
characters; the lookahead consumes nothing), resume at its end. -/
def scanCmdsAux : Nat → Str → Nat → List PCmd
  | 0, _, _ => []
  | fuel + 1, s, pos =>
    match s with
    | [] => []
    | _ :: rest =>
      match matchCmdAt s with
      | some (op, ps) =>
        ⟨pos, op, ps⟩ :: scanCmdsAux fuel (s.drop (3 + ps.length)) (pos + 3 + ps.length)
      | none => scanCmdsAux fuel rest (pos + 1)

/-- The ordered command stream of a label block. -/
def scanCmds (content : Str) : List PCmd := scanCmdsAux (content.length + 1) content 0

/-- The emission of one non-`FO` command in the layout loop of `convert`;
`st = (lastY, lastX)`.  `all` is the complete command list, used by the `BC`
case for its forward `find` over source offsets; unrecognized opcodes emit
nothing. -/
def cmdEmit (all : List PCmd) (st : Str × Str) (c : PCmd) : Str :=
  if c.op = "FD".toList then
    "1211000".toList ++ st.1 ++ st.2 ++ c.params ++ ['\r']
  else if c.op = "BC".toList then
    match all.find? (fun d => decide (c.idx < d.idx) && d.op == "FD".toList) with
    | none => []
    | some fd => "BC".toList ++ st.1 ++ st.2 ++ fd.params ++ ['\r']
  else if c.op = "GB".toList then
    let nums := (splitOnChar ',' c.params).map jsParseInt
    let w : Option Int := (nums.get? 0).getD none
    let h : Option Int := (nums.get? 1).getD none
    let t : Option Int := match nums.get? 2 with | none => some 1 | some v => v
    let xEnd := jsPadStart 4 '0' (numToStr (jsAdd (jsParseInt st.2) w))
    let yEnd := jsPadStart 4 '0' (numToStr (jsAdd (jsParseInt st.1) h))
    'E' :: st.1 ++ ',' :: st.2 ++ ',' :: yEnd ++ ',' :: xEnd ++
      ',' :: numToStr t ++ ',' :: numToStr t ++ ['\r']
  else if c.op = "XG".toList then
    match (splitOnChar ':' c.params).get? 1 with
    | none => []
    | some seg =>
      let name := (splitOnChar ',' seg).headD []
      if name = [] then []
      else 'Y' :: st.1 ++ ',' :: st.2 ++ ',' :: name ++ ['\r']
  else []

/-- The layout loop of `convert`.  An `FO` command rewrites the carried
cursor from its comma-separated parameters (`y` from index 1, `x` from
index 0, each `padStart(4, '0')`) and emits nothing; indexing `[1]` into a
parameter list without a comma yields `undefined` and the subsequent
`.padStart` throws, modelled as `none`.  Every other command appends its
`cmdEmit` output. -/
def layoutLoop (all : List PCmd) : List PCmd → Str × Str → Option Str
  | [], _ => some []
  | c :: rest, st =>
    if c.op = "FO".toList then
      match (splitOnChar ',' c.params).get? 1 with
      | none => none
      | some py =>
        let newY := jsPadStart 4 '0' py
        let newX := jsPadStart 4 '0' ((splitOnChar ',' c.params).headD [])
        layoutLoop all rest (newY, newX)
    else
      (layoutLoop all rest st).map (fun t => cmdEmit all st c ++ t)

/-- The assembled `layoutScript` of `convert`: empty when there is no
`^XA...^XZ` block, otherwise the layout loop over the scanned commands with
the cursor initialised to `("0000", "0000")`. -/
def labelLayout (zpl : Str) : Option Str :=
  match labelContent zpl with
  | none => some []
  | some content =>
    layoutLoop (scanCmds content) (scanCmds content) ("0000".toList, "0000".toList)

/-- The fixed framing of both assembly paths: `<STX>L\r` then `D11\r`. -/
def headerL : Str := "\x02L\rD11\r".toList

/-- The closing `E\r` command of both assembly paths. -/
def endL : Str := "E\r".toList

/-- Models `ZplToDplConverter.convert` on character lists: image-storage pass, then
layout pass, then framing `<STX>L\rD11\r … E\r`.  `none` models an uncaught
exception escaping `convert`. -/
def convertL (zpl : Str) : Option Str :=
  match dgStorage zpl with
  | none => none
  | some storage =>
    match labelLayout zpl with
    | none => none
    | some layout => some (headerL ++ storage ++ layout ++ endL)

/-- Wrapper for `ZplToDplConverter.convert` at `String` type. -/
def convert (zpl : String) : Option String :=
  (convertL zpl.toList).map (fun l => String.mk l)

/-! ### Raster encoder (`imageToMonochromeBitmap`, `bitmapToDplHex`) -/

/-- The pixel source of `imageToMonochromeBitmap`: a canvas `ImageData` with
`4 * width * height` RGBA samples, read through `pixels` (flat index). -/
structure JsImage : Type where
  width : Nat
  height : Nat
  pixels : Nat → Nat

/-- A 1-bit monochrome bitmap: `data` holds one bit value per pixel in
row-major flat order (`y * width + x`). -/
structure Bitmap : Type where
  data : Nat → Nat
  width : Nat
  height : Nat

/-- Models `imageToMonochromeBitmap(image, threshold)`: pixel `j` is ink (1) when
the unweighted channel average `(r + g + b) / 3` is below `threshold`.
Because `r + g + b` is an integer, `(r + g + b) / 3 < threshold` holds
exactly when `r + g + b < 3 * threshold`, which avoids non-integer
arithmetic. -/
def imageToMonochromeBitmap (img : JsImage) (threshold : Nat) : Bitmap where
  data := fun j =>
    if img.pixels (4 * j) + img.pixels (4 * j + 1) + img.pixels (4 * j + 2) < 3 * threshold
    then 1 else 0
  width := img.width
  height := img.height

/-- The inner `x` loop of `bitmapToDplHex`: shift each bit into `byte`
(most significant first), flush a full byte as two uppercase hex characters
when `bitCount` reaches 8, and at the end of the row left-shift a partial
byte so the row pads to a fresh byte boundary. -/
def packRow : List Nat → Nat → Nat → Str
  | [], byte, bitCount =>
    if bitCount > 0 then jsHexByte (byte <<< (8 - bitCount)) else []
  | bit :: rest, byte, bitCount =>
    let byte2 := byte <<< 1 ||| bit
    let bitCount2 := bitCount + 1
    if bitCount2 = 8 then jsHexByte byte2 ++ packRow rest 0 0
    else packRow rest byte2 bitCount2

/-- Models `bitmapToDplHex`: rows are packed independently (`byte`/`bitCount` reset
per row) and concatenated in row-major order. -/
def bitmapToDplHex (bm : Bitmap) : Str :=
  ((List.range bm.height).map (fun y =>
    packRow ((List.range bm.width).map (fun x => bm.data (y * bm.width + x))) 0 0)).flatten

/-! ### `DplLayoutPrinterService.print` (placed-element path) -/

/-- An `HTMLElement` as the service reads it: its tag name and its
string-keyed attribute map (`getAttribute` yields `null`, here `none`, for an
absent key). -/
structure Elem : Type where
  tagName : Str
  attrs : List (Str × Str)
deriving DecidableEq

/-- Models `element.getAttribute(k)`. -/
def getAttribute (el : Elem) (k : Str) : Option Str :=
  (el.attrs.find? (fun p => p.1 == k)).map (fun p => p.2)

/-- Update an attribute list: overwrite the first binding of `k` in place, or
append a new binding. -/
def setAttrList (k v : Str) : List (Str × Str) → List (Str × Str)
  | [] => [(k, v)]
  | (k2, v2) :: rest => if k2 = k then (k2, v) :: rest else (k2, v2) :: setAttrList k v rest

/-- Models `element.setAttribute(k, v)`. -/
def setAttribute (el : Elem) (k v : Str) : Elem :=
  { el with attrs := setAttrList k v el.attrs }

/-- The JavaScript idiom `element.getAttribute(k) || dflt`: both `null` and
the empty string are falsy and fall back to `dflt`. -/
def attrOr (el : Elem) (k dflt : Str) : Str :=
  match getAttribute el k with
  | some v => if v = [] then dflt else v
  | none => dflt

/-- A design item as `print` consumes it: the underlying element plus its
style-derived pixel geometry (`getStyle('left'/'top'/'width'/'height')`),
restricted to integer-valued CSS pixel values so that `parseFloat` is exact
integer parsing. -/
structure DesignItem : Type where
  elem : Elem
  left : Int
  top : Int
  width : Int
  height : Int
deriving DecidableEq

/-- The logical image name chosen by the image-storage pass:
`element.getAttribute('image-name') || IMG<random>`.  The `Math.random`
suffix stream is modelled by the caller-supplied `fresh` sequence together
with a counter that advances exactly when a random name is drawn. -/
def chosenName (fresh : Nat → Str) (ctr : Nat) (el : Elem) : Str × Nat :=
  match getAttribute el ("image-name".toList) with
  | some n => if n = [] then (fresh ctr, ctr + 1) else (n, ctr)
  | none => (fresh ctr, ctr + 1)

/-- One iteration of the first (image-storage) pass of `print` over a single
item: non-image elements and images without a `src` are skipped; otherwise
the name is chosen, the image is fetched and encoded, an
`ID<name>\r<hex>\r` record is appended, and the name is written back to the
element as `data-dpl-name`.  A fetch/decode failure (`loader` returning
`none` for the rejected `loadImage` promise) is caught by the surrounding
`try`/`catch` after the name was already chosen, leaving the element
untouched and emitting nothing. -/
def storeStep (loader : Str → Option JsImage) (fresh : Nat → Str) (ctr : Nat)
    (item : DesignItem) : Str × DesignItem × Nat :=
  if jsToLower item.elem.tagName = "zpl-image".toList then
    match getAttribute item.elem ("src".toList) with
    | none => ([], item, ctr)
    | some src =>
      if src = [] then ([], item, ctr)
      else
        let nc := chosenName fresh ctr item.elem
        match loader src with
        | none => ([], item, nc.2)
        | some img =>
          let hex := bitmapToDplHex (imageToMonochromeBitmap img 128)
          ("ID".toList ++ nc.1 ++ ['\r'] ++ hex ++ ['\r'],
           { item with elem := setAttribute item.elem ("data-dpl-name".toList) nc.1 },
           nc.2)
  else ([], item, ctr)

/-- Result of the image-storage pass: the accumulated `imageStorageScript`,
the (possibly mutated) items, and the fresh-name counter. -/
structure PassOut : Type where
  script : Str
  items : List DesignItem
  ctr : Nat
deriving DecidableEq

/-- The first pass of `print` over the whole item sequence. -/
def storePass (loader : Str → Option JsImage) (fresh : Nat → Str) :
    Nat → List DesignItem → PassOut
  | ctr, [] => ⟨[], [], ctr⟩
  | ctr, item :: rest =>
    let s := storeStep loader fresh ctr item
    let r := storePass loader fresh s.2.2 rest
    ⟨s.1 ++ r.script, s.2.1 :: r.items, r.ctr⟩

/-- The layout emission of `print` for one design item (the second-pass
`switch` on the lower-cased tag name); `x`/`y` are the 4-digit position
fields derived from the item's style. -/
def layoutEmit (item : DesignItem) : Str :=
  let el := item.elem
  let tag := jsToLower el.tagName
  let x := toDplPosition item.left
  let y := toDplPosition item.top
  if tag = "zpl-text".toList then
    "1211000".toList ++ y ++ x ++ attrOr el ("text".toList) [] ++ ['\r']
  else if tag = "zpl-barcode".toList then
    let dat := attrOr el ("data".toList) []
    if (getAttribute el ("type".toList)).map jsToLower = some ("qrcode".toList) then
      "B Q,M,S7".toList ++ y ++ ',' :: x ++ ",d2,".toList ++ dat ++ ['\r']
    else
      'B' :: attrOr el ("type".toList) ("C".toList) ++ y ++ x ++ dat ++ ['\r']
  else if tag = "zpl-graphic-box".toList then
    let t := jsParseInt (attrOr el ("thickness".toList) ("1".toList))
    let xEnd := numToDpl (jsAdd (jsParseInt x) (some item.width))
    let yEnd := numToDpl (jsAdd (jsParseInt y) (some item.height))
    'E' :: y ++ ',' :: x ++ ',' :: yEnd ++ ',' :: xEnd ++
      ',' :: numToStr t ++ ',' :: numToStr t ++ ['\r']
  else if tag = "zpl-graphic-circle".toList then
    let t := jsParseInt (attrOr el ("thickness".toList) ("1".toList))
    'C' :: y ++ ',' :: x ++ ',' :: intToFixed0 item.width ++ ',' :: numToStr t ++ ['\r']
  else if tag = "zpl-graphic-diagonal-line".toList then
    let t := jsParseInt (attrOr el ("thickness".toList) ("1".toList))
    let xEnd := numToDpl (jsAdd (jsParseInt x) (some item.width))
    let yEnd := numToDpl (jsAdd (jsParseInt y) (some item.height))
    'X' :: y ++ ',' :: x ++ ',' :: yEnd ++ ',' :: xEnd ++ ',' :: numToStr t ++ ['\r']
  else if tag = "zpl-image".toList then
    match getAttribute el ("data-dpl-name".toList) with
    | none => []
    | some n => if n = [] then [] else 'Y' :: y ++ ',' :: x ++ ',' :: n ++ ['\r']
  else []

/-- The second (layout) pass of `print`: the concatenated per-item
emissions, in original order. -/
def layoutPass (items : List DesignItem) : Str :=
  (items.map layoutEmit).flatten

/-- Models `DplLayoutPrinterService.print`: image-storage pass, then layout pass
over the (mutated) elements, framed as `<STX>L\rD11\r … E\r`.  The second
component is the item sequence after the call, recording the persisted
`data-dpl-name` side effects. -/
def print (loader : Str → Option JsImage) (fresh : Nat → Str)
    (items : List DesignItem) : Str × List DesignItem :=
  let p := storePass loader fresh 0 items
  (headerL ++ p.script ++ layoutPass p.items ++ endL, p.items)

/-! ### Concrete fixtures used by witnesses and counterexamples -/

/-- A 1 × 1 all-black image (every RGBA sample 0). -/
def img0 : JsImage := ⟨1, 1, fun _ => 0⟩

/-- An image loader that fails on every source URI (every fetch rejects). -/
def loader0 : Str → Option JsImage := fun _ => none

/-- An image loader that succeeds only for the URI `IMGSRC`. -/
def loader1 : Str → Option JsImage :=
  fun s => if s = "IMGSRC".toList then some img0 else none

/-- A deterministic stand-in for the `Math.random` name stream. -/
def fresh1 : Nat → Str := fun n => 'R' :: natDigitsBase 10 n

/-- A text element at (10, 20) with content `HI`. -/
def itemText : DesignItem :=
  ⟨⟨"ZPL-TEXT".toList, [("text".toList, "HI".toList)]⟩, 10, 20, 0, 0⟩

/-- An image element whose fetch succeeds, with an explicit logical name. -/
def itemImgOk : DesignItem :=
  ⟨⟨"ZPL-IMAGE".toList,
    [("src".toList, "IMGSRC".toList), ("image-name".toList, "LOGO".toList)]⟩, 1, 2, 1, 1⟩

/-- An image element whose fetch fails. -/
def itemImgFail : DesignItem :=
  ⟨⟨"ZPL-IMAGE".toList, [("src".toList, "BAD".toList)]⟩, 3, 4, 1, 1⟩

/-- An image element whose fetch fails but that already carries a stale
`data-dpl-name` attribute (e.g. left behind by an earlier `print` call). -/
def itemImgStale : DesignItem :=
  ⟨⟨"ZPL-IMAGE".toList,
    [("src".toList, "BAD".toList), ("data-dpl-name".toList, "OLD".toList)]⟩, 1, 2, 1, 1⟩

/-- Parsed commands preceding the barcode command in the `C7` witness. -/
def cmdsPre : List PCmd := [⟨0, "AB".toList, "x".toList⟩]

/-- The barcode command of the `C7` witness. -/
def cmdBc : PCmd := ⟨5, "BC".toList, "opts".toList⟩

/-- Parsed commands following the barcode command in the `C7` witness: an
unrecognized command, then two text-data commands. -/
def cmdsPost : List PCmd :=
  [⟨9, "ZZ".toList, "w".toList⟩, ⟨12, "FD".toList, "PAY".toList⟩,
   ⟨20, "FD".toList, "Q".toList⟩]

/-! ## Theorems -/

/-! ## Helper lemmas -/

theorem natDigitsGo_len_pos (fuel n : Nat) (h : n < fuel) :
    1 ≤ (natDigitsGo 10 fuel n).length := by
  induction fuel generalizing n with
  | zero => omega
  | succ f ih =>
    rw [natDigitsGo]
    by_cases h10 : n < 10
    · simp [h10]
    · simp [h10]

theorem natDigitsGo_len_le (fuel k n : Nat) (hf : n < fuel) (hk : 0 < k)
    (h : n < 10 ^ k) : (natDigitsGo 10 fuel n).length ≤ k := by
  induction fuel generalizing n k with
  | zero => omega
  | succ f ih =>
    rw [natDigitsGo]
    by_cases h10 : n < 10
    · simp [h10]; omega
    · simp [h10]
      have hk2 : 2 ≤ k := by
        by_contra hlt
        have : k = 1 := by omega
        subst this
        simp at h
        omega
      have hdiv : n / 10 < 10 ^ (k - 1) := by
        have h1 : 10 ^ (k - 1) * 10 = 10 ^ k := by
          rw [← pow_succ]
          congr 1
          omega
        omega
      have := ih (k - 1) (n / 10) (by omega) (by omega) hdiv
      omega

theorem natDigitsGo_len_ge (fuel k n : Nat) (hf : n < fuel) (h : 10 ^ k ≤ n) :
    k + 1 ≤ (natDigitsGo 10 fuel n).length := by
  induction fuel generalizing n k with
  | zero => omega
  | succ f ih =>
    rw [natDigitsGo]
    by_cases h10 : n < 10
    · simp [h10]
      have : k = 0 := by
        by_contra hne
        have h1 : 10 ≤ 10 ^ k := by
          calc 10 = 10 ^ 1 := (pow_one 10).symm
          _ ≤ 10 ^ k := Nat.pow_le_pow_right (by omega) (by omega)
        omega
      omega
    · simp [h10]
      cases k with
      | zero => have := natDigitsGo_len_pos f (n / 10) (by omega); omega
      | succ k2 =>
        have hdiv : 10 ^ k2 ≤ n / 10 := by
          rw [Nat.le_div_iff_mul_le (by omega)]
          calc 10 ^ k2 * 10 = 10 ^ (k2 + 1) := (pow_succ 10 k2).symm
          _ ≤ n := h
        have := ih k2 (n / 10) (by omega) hdiv
        omega

/-- Claim C1: converting the source markup `"^XA^FO100,200^FDHELLO^FS^XZ"`
yields exactly `"\x02L\rD11\r121100002000100HELLO\rE\r"`: start-of-label
marker and record terminator, the fixed `D11` configuration command, an
empty image-storage block, one text emission (`1211000` + Y `0200` +
X `0100` + `HELLO` + `\r`), and the end-of-label command `E\r`. -/
theorem convert_end_to_end :
    convert "^XA^FO100,200^FDHELLO^FS^XZ" = some "\x02L\rD11\r121100002000100HELLO\rE\r" := by
  decide

/-- Claim C8: a non-negative coordinate below 10000 renders as exactly four
characters, the decimal digits left-padded with `'0'`. -/
theorem toDplPosition_four_digits (v : Int) (h0 : 0 ≤ v) (h1 : v < 10000) :
    (toDplPosition v).length = 4 ∧
    ∃ k, toDplPosition v = List.replicate k '0' ++ natDigitsBase 10 v.toNat := by
  have h4 : (10 : Nat) ^ 4 = 10000 := by norm_num
  have hle : (natDigitsBase 10 v.toNat).length ≤ 4 :=
    natDigitsGo_len_le (v.toNat + 1) 4 v.toNat (by omega) (by omega) (by omega)
  have hpos : 1 ≤ (natDigitsBase 10 v.toNat).length :=
    natDigitsGo_len_pos (v.toNat + 1) v.toNat (by omega)
  have hfx : intToFixed0 v = natDigitsBase 10 v.toNat := by
    unfold intToFixed0
    rw [if_neg (by omega)]
  constructor
  · unfold toDplPosition jsPadStart
    rw [hfx]
    by_cases hc : 4 ≤ (natDigitsBase 10 v.toNat).length
    · rw [if_pos hc]
      omega
    · rw [if_neg hc]
      simp
      omega
  · unfold toDplPosition jsPadStart
    rw [hfx]
    by_cases hc : 4 ≤ (natDigitsBase 10 v.toNat).length
    · rw [if_pos hc]
      exact ⟨0, by simp⟩
    · rw [if_neg hc]
      exact ⟨4 - (natDigitsBase 10 v.toNat).length, rfl⟩

/-- Witness for `toDplPosition_four_digits` at the concrete coordinate 150. -/
theorem toDplPosition_four_digits_witness :
    (0 : Int) ≤ 150 ∧ (150 : Int) < 10000 ∧
    (toDplPosition 150).length = 4 ∧
    (∃ k, toDplPosition 150 = List.replicate k '0' ++ natDigitsBase 10 (150 : Int).toNat) := by
  refine ⟨by decide, by decide, ?_, ?_⟩
  · exact (toDplPosition_four_digits 150 (by decide) (by decide)).1
  · exact (toDplPosition_four_digits 150 (by decide) (by decide)).2

/-- Claim C9, counterexample: the code signals no error for out-of-range
positions; it silently emits the 5-digit field `"10000"` for 10000 and the
sign-embedded field `"00-5"` for -5. -/
theorem toDplPosition_out_of_range_cex :
    toDplPosition 10000 = "10000".toList ∧ toDplPosition (-5) = "00-5".toList := by
  constructor <;> decide

/-- Claim C9 as amended: position values not representable in 4 digits are
not treated as an error; the encoding silently returns the full (5 or more
digit) decimal rendering for values at or above 10000, and a '-'-containing
padded field for negative values. -/
theorem toDplPosition_out_of_range_silent :
    (∀ v : Int, 10000 ≤ v →
      toDplPosition v = intToFixed0 v ∧ 5 ≤ (toDplPosition v).length) ∧
    (∀ v : Int, v < 0 → '-' ∈ toDplPosition v) := by
  constructor
  · intro v hv
    have h4 : (10 : Nat) ^ 4 = 10000 := by norm_num
    have hge : 5 ≤ (natDigitsBase 10 v.toNat).length := by
      unfold natDigitsBase
      have := natDigitsGo_len_ge (v.toNat + 1) 4 v.toNat (by omega) (by omega)
      omega
    have hfx : intToFixed0 v = natDigitsBase 10 v.toNat := by
      unfold intToFixed0
      rw [if_neg (by omega)]
    refine ⟨?_, ?_⟩
    · unfold toDplPosition jsPadStart
      rw [hfx, if_pos (by omega)]
    · unfold toDplPosition jsPadStart
      rw [hfx, if_pos (by omega)]
      omega
  · intro v hv
    have hfx : intToFixed0 v = '-' :: natDigitsBase 10 v.natAbs := by
      unfold intToFixed0
      rw [if_pos hv]
    unfold toDplPosition jsPadStart
    rw [hfx]
    split
    · exact List.mem_cons_self _ _
    · exact List.mem_append_right _ (List.mem_cons_self _ _)

/-- Witness for `toDplPosition_out_of_range_silent` at 10000 and -5. -/
theorem toDplPosition_out_of_range_silent_witness :
    (toDplPosition 10000 = intToFixed0 10000 ∧ 5 ≤ (toDplPosition 10000).length) ∧
    '-' ∈ toDplPosition (-5) := by
  refine ⟨toDplPosition_out_of_range_silent.1 10000 (by decide),
    toDplPosition_out_of_range_silent.2 (-5) (by decide)⟩

theorem decompressCore_flat (items : List ZItem) (hg : ∀ it ∈ items, it.good) :
    decompressCore (items.map ZItem.chars).flatten =
      some (items.map ZItem.expand).flatten := by
  induction items with
  | nil => rfl
  | cons it rest ih =>
    have hgit : it.good := hg it (List.mem_cons_self it rest)
    have hgr : ∀ x ∈ rest, x.good := fun x hx => hg x (List.mem_cons_of_mem it hx)
    cases it with
    | tok t l =>
      obtain ⟨cnt, hcnt⟩ := Option.isSome_iff_exists.mp hgit
      simp only [List.map_cons, List.flatten_cons, ZItem.chars, List.cons_append,
        List.nil_append, decompressCore, hcnt, ih hgr, Option.map_some]
      simp [ZItem.expand, hcnt]
    | lit c =>
      have hnone : countOf c = none := Option.isNone_iff_eq_none.mp hgit
      simp only [List.map_cons, List.flatten_cons, ZItem.chars, List.cons_append,
        List.nil_append, decompressCore, hnone, ih hgr, Option.map_some]
      simp [ZItem.expand]

/-- Claim C2: the compression token table maps the 19 upper-range characters
(char codes 71..89, `'G'`..`'Y'`) to counts 1..19 and the 19 lower-range
characters (103..121, `'g'`..`'y'`) to counts 20, 40, …, 380 (rank × 20);
on an input alternating correctly between tokens and literals, each token
repeats the single following character `count` times, any other character
passes through once, the result is upper-cased, and its length is the sum
of the per-item counts. -/
theorem decompress_run_length_spec :
    (∀ i : Nat, i ≤ 19 → 1 ≤ i →
      countOf (Char.ofNat (70 + i)) = some i ∧
      countOf (Char.ofNat (102 + i)) = some (i * 20)) ∧
    (∀ items : List ZItem, (∀ it ∈ items, it.good) →
      decompressZplAsciiHex (items.map ZItem.chars).flatten =
        some (jsToUpper (items.map ZItem.expand).flatten) ∧
      (items.map ZItem.expand).flatten.length = (items.map ZItem.cnt).sum) := by
  constructor
  · decide
  · intro items hg
    constructor
    · unfold decompressZplAsciiHex
      rw [decompressCore_flat items hg]
      rfl
    · rw [List.length_flatten]
      congr 1
      rw [List.map_map]
      refine List.map_congr_left ?_
      intro it _
      cases it with
      | tok t l => simp [ZItem.expand, ZItem.cnt]
      | lit c => simp [ZItem.expand, ZItem.cnt]

/-- Witness for `decompress_run_length_spec`: ranks 1 and 20 in the table,
and the item list `[tok 'G' '0', tok 'H' '1', lit '3']`, whose input
`"G0H13"` decodes to `"0113"` of length 1 + 2 + 1. -/
theorem decompress_run_length_spec_witness :
    countOf (Char.ofNat (70 + 1)) = some 1 ∧
    countOf (Char.ofNat (102 + 1)) = some 20 ∧
    decompressZplAsciiHex "G0H13".toList = some "0113".toList ∧
    ([ZItem.tok 'G' '0', ZItem.tok 'H' '1', ZItem.lit '3'].map ZItem.cnt).sum = 4 := by
  refine ⟨(decompress_run_length_spec.1 1 (by decide) (by decide)).1,
    (decompress_run_length_spec.1 1 (by decide) (by decide)).2, ?_, by decide⟩
  have h := (decompress_run_length_spec.2
    [ZItem.tok 'G' '0', ZItem.tok 'H' '1', ZItem.lit '3'] (by decide)).1
  have he : ([ZItem.tok 'G' '0', ZItem.tok 'H' '1', ZItem.lit '3'].map ZItem.chars).flatten
      = "G0H13".toList := by decide
  have hu : jsToUpper ([ZItem.tok 'G' '0', ZItem.tok 'H' '1',
      ZItem.lit '3'].map ZItem.expand).flatten = "0113".toList := by decide
  rw [he, hu] at h
  exact h

theorem decompressCore_trailing_tok (items : List ZItem) (t : Char)
    (hg : ∀ it ∈ items, it.good) (ht : (countOf t).isSome) :
    decompressCore ((items.map ZItem.chars).flatten ++ [t]) = none := by
  induction items with
  | nil =>
    obtain ⟨cnt, hcnt⟩ := Option.isSome_iff_exists.mp ht
    simp [decompressCore, hcnt]
  | cons it rest ih =>
    have hgit : it.good := hg it (List.mem_cons_self it rest)
    have hgr : ∀ x ∈ rest, x.good := fun x hx => hg x (List.mem_cons_of_mem it hx)
    cases it with
    | tok t2 l =>
      obtain ⟨cnt, hcnt⟩ := Option.isSome_iff_exists.mp hgit
      simp only [List.map_cons, List.flatten_cons, ZItem.chars, List.cons_append,
        List.nil_append, decompressCore, hcnt, ih hgr]
      rfl
    | lit c =>
      have hnone : countOf c = none := Option.isNone_iff_eq_none.mp hgit
      simp only [List.map_cons, List.flatten_cons, ZItem.chars, List.cons_append,
        List.nil_append, decompressCore, hnone, ih hgr]
      rfl

theorem dgStorageList_any_fail (l : List (Str × Str))
    (h : l.any (fun nd => (decompressZplAsciiHex (stripNL nd.2)).isNone)) :
    dgStorageList l = none := by
  induction l with
  | nil => simp at h
  | cons nd rest ih =>
    obtain ⟨name, dat⟩ := nd
    simp only [List.any_cons, Bool.or_eq_true] at h
    unfold dgStorageList
    rcases h with h | h
    · simp only [Option.isNone_iff_eq_none] at h
      simp [h]
    · rw [ih h]
      cases hdec : decompressZplAsciiHex (stripNL dat) <;> simp

/-- Claim C4, counterexample: the input holds two `~DG` payloads, the first
(`"0G"`) ending in the repeat token `G` with no following literal, the
second well formed, plus a label block with a text command.  The claim says
only the first record's image-storage emission is skipped while the second
payload and the layout output continue; in fact the decode error escapes
`convert` uncaught (no try/catch around `decompressZplAsciiHex`), so the
whole conversion aborts and produces no output at all. -/
theorem decode_error_aborts_convert_cex :
    convert "~DGA,1,1,0G~DGB,1,1,00^XA^FDHI^XZ" = none := by
  decide

/-- Claim C4 as amended: a compressed payload whose final character is a
repeat token makes decompression fail (the source reads past the end and
throws), and in the enclosing conversion that failure is a hard failure of
the *entire* conversion: `convert` propagates it and yields no output,
rather than skipping only that payload's record and continuing. -/
theorem decode_error_propagates :
    (∀ (items : List ZItem) (t : Char), (∀ it ∈ items, it.good) →
      (countOf t).isSome →
      decompressZplAsciiHex ((items.map ZItem.chars).flatten ++ [t]) = none) ∧
    (∀ zpl : Str,
      (dgMatches zpl).any (fun nd => (decompressZplAsciiHex (stripNL nd.2)).isNone) →
      convertL zpl = none) := by
  constructor
  · intro items t hg ht
    unfold decompressZplAsciiHex
    rw [decompressCore_trailing_tok items t hg ht]
    rfl
  · intro zpl h
    unfold convertL dgStorage
    rw [dgStorageList_any_fail (dgMatches zpl) h]

/-- Witness for `decode_error_propagates`: the single-item prefix `"0"`
followed by token `'G'` fails to decompress, and the two-payload input of
the counterexample (whose first payload fails) makes the whole conversion
return nothing. -/
theorem decode_error_propagates_witness :
    decompressZplAsciiHex (([ZItem.lit '0'].map ZItem.chars).flatten ++ ['G']) = none ∧
    convertL "~DGA,1,1,0G~DGB,1,1,00^XA^FDHI^XZ".toList = none := by
  refine ⟨decode_error_propagates.1 [ZItem.lit '0'] 'G' (by decide) (by decide),
    decode_error_propagates.2 _ (by decide)⟩

theorem packRow_zeros (n : Nat) : ∀ b : Nat, b < 8 →
    packRow (List.replicate n 0) 0 b = List.replicate (2 * ((b + n + 7) / 8)) '0' := by
  induction n with
  | zero =>
    intro b hb
    rw [List.replicate_zero]
    unfold packRow
    by_cases hb0 : b > 0
    · rw [if_pos hb0]
      have hz : (0 : Nat) <<< (8 - b) = 0 := by simp [Nat.shiftLeft_eq]
      rw [hz]
      have h1 : (b + 0 + 7) / 8 = 1 := by omega
      rw [h1]
      decide
    · rw [if_neg hb0]
      have hb0' : b = 0 := by omega
      subst hb0'
      decide
  | succ n2 ih =>
    intro b hb
    rw [List.replicate_succ]
    simp only [packRow]
    have hz : (0 : Nat) <<< 1 ||| 0 = 0 := by decide
    rw [hz]
    by_cases h8 : b + 1 = 8
    · rw [if_pos h8]
      rw [ih 0 (by omega)]
      have hhex : jsHexByte 0 = List.replicate 2 '0' := by decide
      rw [hhex, ← List.replicate_add]
      congr 1
      omega
    · rw [if_neg h8]
      rw [ih (b + 1) (by omega)]
      congr 1
      omega

/-- Claim C5: encoding an all-background bitmap (every pixel bit 0) of
width W ≥ 1 and height H ≥ 1 yields a hex string of length
`2 * H * ceil(W / 8)` consisting entirely of `'0'` characters
(`ceil(W / 8) = (W + 7) / 8` in natural division); each row is packed into
a fresh byte boundary, so every row contributes `2 * ceil(W / 8)` zero
characters. -/
theorem bitmapToDplHex_all_background (bm : Bitmap) (_hw : 1 ≤ bm.width)
    (_hh : 1 ≤ bm.height) (hz : ∀ i, i < bm.width * bm.height → bm.data i = 0) :
    bitmapToDplHex bm = List.replicate (2 * bm.height * ((bm.width + 7) / 8)) '0' := by
  unfold bitmapToDplHex
  have hrow : ∀ y ∈ List.range bm.height,
      packRow ((List.range bm.width).map (fun x => bm.data (y * bm.width + x))) 0 0
        = List.replicate (2 * ((bm.width + 7) / 8)) '0' := by
    intro y hy
    rw [List.mem_range] at hy
    have hmap : (List.range bm.width).map (fun x => bm.data (y * bm.width + x))
        = List.replicate bm.width 0 := by
      rw [List.eq_replicate_iff]
      refine ⟨by simp, ?_⟩
      intro b hb
      rw [List.mem_map] at hb
      obtain ⟨x, hx, hbx⟩ := hb
      rw [List.mem_range] at hx
      rw [← hbx]
      apply hz
      calc y * bm.width + x < y * bm.width + bm.width := by omega
      _ = (y + 1) * bm.width := by ring
      _ ≤ bm.height * bm.width := Nat.mul_le_mul_right _ (by omega)
      _ = bm.width * bm.height := Nat.mul_comm _ _
    rw [hmap, packRow_zeros bm.width 0 (by omega)]
    congr 1
    omega
  rw [List.map_congr_left hrow]
  have hconst : ∀ m : Nat,
      ((List.range m).map (fun _ => List.replicate (2 * ((bm.width + 7) / 8)) '0')).flatten
        = List.replicate (m * (2 * ((bm.width + 7) / 8))) '0' := by
    intro m
    induction m with
    | zero => simp
    | succ m2 ih =>
      rw [List.range_succ, List.map_append, List.flatten_append, ih]
      simp only [List.map_cons, List.map_nil, List.flatten_cons, List.flatten_nil,
        List.append_nil]
      rw [← List.replicate_add]
      congr 1
      ring
  rw [hconst]
  congr 1
  ring

/-- Witness for `bitmapToDplHex_all_background`: a 3 × 2 all-background
bitmap encodes to `"0000"` (two rows of one padded zero byte each). -/
theorem bitmapToDplHex_all_background_witness :
    bitmapToDplHex ⟨fun _ => 0, 3, 2⟩ = List.replicate 4 '0' := by
  have h := bitmapToDplHex_all_background ⟨fun _ => 0, 3, 2⟩ (by decide) (by decide)
    (fun i _ => rfl)
  norm_num at h
  exact h

/-- Claim C3: on both assembly paths the output is framed as the fixed
header, the entire image-storage block, then the entire layout block, then
the end-of-label command — the image-storage pass output precedes the first
layout emission in full and the passes are never interleaved. -/
theorem assembled_pass_order :
    (∀ (zpl storage layout : Str),
      dgStorage zpl = some storage → labelLayout zpl = some layout →
      storage ≠ [] → layout ≠ [] →
      convertL zpl = some (headerL ++ storage ++ layout ++ endL)) ∧
    (∀ (loader : Str → Option JsImage) (fresh : Nat → Str) (items : List DesignItem),
      (storePass loader fresh 0 items).script ≠ [] →
      layoutPass (storePass loader fresh 0 items).items ≠ [] →
      (print loader fresh items).1 =
        headerL ++ (storePass loader fresh 0 items).script ++
          layoutPass (storePass loader fresh 0 items).items ++ endL) := by
  constructor
  · intro zpl storage layout hs hl _ _
    simp [convertL, hs, hl]
  · intro loader fresh items _ _
    rfl

/-- Witness for `assembled_pass_order`: a source text with one `~DG` record
and one label text command, and an element sequence with one stored image
and one text element. -/
theorem assembled_pass_order_witness :
    convertL "~DGX,1,1,00^XA^FO1,2^FDA^XZ".toList =
      some (headerL ++ "IDX\r00\r".toList ++ "121100000020001A\r".toList ++ endL) ∧
    (print loader1 fresh1 [itemImgOk, itemText]).1 =
      headerL ++ (storePass loader1 fresh1 0 [itemImgOk, itemText]).script ++
        layoutPass (storePass loader1 fresh1 0 [itemImgOk, itemText]).items ++ endL := by
  constructor
  · exact assembled_pass_order.1 _ ("IDX\r00\r".toList) ("121100000020001A\r".toList)
      (by decide) (by decide) (by decide) (by decide)
  · exact assembled_pass_order.2 loader1 fresh1 [itemImgOk, itemText]
      (by decide) (by decide)

theorem find?_append_false (p : PCmd → Bool) (l1 l2 : List PCmd)
    (h : ∀ a ∈ l1, p a = false) : (l1 ++ l2).find? p = l2.find? p := by
  induction l1 with
  | nil => rfl
  | cons a rest ih =>
    rw [List.cons_append,
      List.find?_cons_of_neg _ (by simp [h a (List.mem_cons_self a rest)])]
    exact ih (fun x hx => h x (List.mem_cons_of_mem a hx))

theorem find?_guard_true (i : Nat) (post : List PCmd)
    (h : ∀ d ∈ post, i < d.idx) :
    post.find? (fun d => decide (i < d.idx) && d.op == "FD".toList)
      = post.find? (fun d => d.op == "FD".toList) := by
  induction post with
  | nil => rfl
  | cons d rest ih =>
    have hd : decide (i < d.idx) = true := decide_eq_true (h d (List.mem_cons_self d rest))
    have hrest := ih (fun x hx => h x (List.mem_cons_of_mem d hx))
    cases hfd : (d.op == "FD".toList) with
    | true => simp only [List.find?_cons, hd, hfd, Bool.true_and]
    | false =>
      simp only [List.find?_cons, hd, hfd, Bool.true_and]
      exact hrest

/-- Claim C7: in a command stream with strictly increasing source offsets, a
barcode (`BC`) command resolves its payload by the forward `find` to the
first text-data (`FD`) command after its offset — equivalently the first
`FD` in the commands that follow it, however many unrecognized or other
commands intervene — and emits `BC` + cursor + that payload; when no `FD`
follows, it emits nothing.  The last conjunct records that the layout loop
contributes exactly this `cmdEmit` output for the barcode command. -/
theorem barcode_forward_lookup (pre : List PCmd) (bc : PCmd) (post : List PCmd)
    (st : Str × Str)
    (hmono : (pre ++ bc :: post).Pairwise (fun a b => a.idx < b.idx))
    (hop : bc.op = "BC".toList) :
    ((pre ++ bc :: post).find? (fun d => decide (bc.idx < d.idx) && d.op == "FD".toList)
        = post.find? (fun d => d.op == "FD".toList)) ∧
    (post.find? (fun d => d.op == "FD".toList) = none →
      cmdEmit (pre ++ bc :: post) st bc = []) ∧
    (∀ fd, post.find? (fun d => d.op == "FD".toList) = some fd →
      cmdEmit (pre ++ bc :: post) st bc =
        "BC".toList ++ st.1 ++ st.2 ++ fd.params ++ ['\r']) ∧
    (∀ rest st2, layoutLoop (pre ++ bc :: post) (bc :: rest) st2 =
      (layoutLoop (pre ++ bc :: post) rest st2).map
        (fun t => cmdEmit (pre ++ bc :: post) st2 bc ++ t)) := by
  rw [List.pairwise_append] at hmono
  obtain ⟨_, hcp, hcross⟩ := hmono
  rw [List.pairwise_cons] at hcp
  have hpost : ∀ d ∈ post, bc.idx < d.idx := hcp.1
  have hfind : (pre ++ bc :: post).find?
      (fun d => decide (bc.idx < d.idx) && d.op == "FD".toList)
        = post.find? (fun d => d.op == "FD".toList) := by
    rw [find?_append_false]
    · rw [List.find?_cons_of_neg _ (by simp)]
      exact find?_guard_true bc.idx post hpost
    · intro a ha
      have : a.idx < bc.idx := hcross a ha bc (List.mem_cons_self bc post)
      simp [this]
      omega
  have hbcfd : ¬(bc.op = "FD".toList) := by
    rw [hop]
    decide
  refine ⟨hfind, ?_, ?_, ?_⟩
  · intro hnone
    unfold cmdEmit
    rw [if_neg hbcfd, if_pos hop, hfind, hnone]
  · intro fd hfd
    unfold cmdEmit
    rw [if_neg hbcfd, if_pos hop, hfind, hfd]
  · intro rest st2
    conv_lhs => rw [layoutLoop]
    rw [if_neg (by rw [hop]; decide)]

/-- Witness for `barcode_forward_lookup`: the barcode command at offset 5
skips the unrecognized command at offset 9 and resolves to the text-data
command at offset 12 (payload `PAY`), not the later one at offset 20. -/
theorem barcode_forward_lookup_witness :
    cmdEmit (cmdsPre ++ cmdBc :: cmdsPost) ("0001".toList, "0002".toList) cmdBc
      = "BC".toList ++ "0001".toList ++ "0002".toList ++ "PAY".toList ++ ['\r'] := by
  exact (barcode_forward_lookup cmdsPre cmdBc cmdsPost ("0001".toList, "0002".toList)
    (by decide) (by decide)).2.2.1 ⟨12, "FD".toList, "PAY".toList⟩ (by decide)

theorem storeStep_fail (loader : Str → Option JsImage) (fresh : Nat → Str)
    (ctr : Nat) (e : DesignItem) (s : Str)
    (htag : jsToLower e.elem.tagName = "zpl-image".toList)
    (hsrc : getAttribute e.elem ("src".toList) = some s) (hsne : s ≠ [])
    (hload : loader s = none) :
    storeStep loader fresh ctr e = ([], e, (chosenName fresh ctr e.elem).2) := by
  have htag2 : jsToLower e.elem.tagName =
      (['z', 'p', 'l', '-', 'i', 'm', 'a', 'g', 'e'] : Str) := htag
  have hsrc2 : getAttribute e.elem (['s', 'r', 'c'] : Str) = some s := hsrc
  simp [storeStep, htag2, hsrc2, hsne, hload]

theorem storeStep_success (loader : Str → Option JsImage) (fresh : Nat → Str)
    (ctr : Nat) (e : DesignItem) (s : Str) (img : JsImage)
    (htag : jsToLower e.elem.tagName = "zpl-image".toList)
    (hsrc : getAttribute e.elem ("src".toList) = some s) (hsne : s ≠ [])
    (hload : loader s = some img) :
    storeStep loader fresh ctr e =
      ("ID".toList ++ (chosenName fresh ctr e.elem).1 ++ ['\r'] ++
         bitmapToDplHex (imageToMonochromeBitmap img 128) ++ ['\r'],
       { e with elem := (setAttribute e.elem ("data-dpl-name".toList) (chosenName fresh ctr e.elem).1) },
       (chosenName fresh ctr e.elem).2) := by
  have htag2 : jsToLower e.elem.tagName =
      (['z', 'p', 'l', '-', 'i', 'm', 'a', 'g', 'e'] : Str) := htag
  have hsrc2 : getAttribute e.elem (['s', 'r', 'c'] : Str) = some s := hsrc
  simp [storeStep, htag2, hsrc2, hsne, hload]

theorem storeStep_nonimage (loader : Str → Option JsImage) (fresh : Nat → Str)
    (ctr : Nat) (e : DesignItem)
    (htag : ¬(jsToLower e.elem.tagName = "zpl-image".toList)) :
    storeStep loader fresh ctr e = ([], e, ctr) := by
  have htag2 : ¬(jsToLower e.elem.tagName =
      (['z', 'p', 'l', '-', 'i', 'm', 'a', 'g', 'e'] : Str)) := htag
  simp [storeStep, htag2]

theorem layoutEmit_no_name (e : DesignItem)
    (htag : jsToLower e.elem.tagName = "zpl-image".toList)
    (hname : getAttribute e.elem ("data-dpl-name".toList) = none) :
    layoutEmit e = [] := by
  have htag2 : jsToLower e.elem.tagName =
      (['z', 'p', 'l', '-', 'i', 'm', 'a', 'g', 'e'] : Str) := htag
  have hname2 : getAttribute e.elem
      (['d', 'a', 't', 'a', '-', 'd', 'p', 'l', '-', 'n', 'a', 'm', 'e'] : Str) = none := hname
  simp [layoutEmit, htag2, hname2]

theorem storePass_append (loader : Str → Option JsImage) (fresh : Nat → Str)
    (l1 l2 : List DesignItem) : ∀ ctr : Nat,
    storePass loader fresh ctr (l1 ++ l2) =
      ⟨(storePass loader fresh ctr l1).script ++
         (storePass loader fresh (storePass loader fresh ctr l1).ctr l2).script,
       (storePass loader fresh ctr l1).items ++
         (storePass loader fresh (storePass loader fresh ctr l1).ctr l2).items,
       (storePass loader fresh (storePass loader fresh ctr l1).ctr l2).ctr⟩ := by
  induction l1 with
  | nil => intro ctr; simp [storePass]
  | cons it rest ih =>
    intro ctr
    simp only [List.cons_append, storePass, List.append_eq]
    rw [ih]
    simp [List.append_assoc]

theorem layoutPass_append (l1 l2 : List DesignItem) :
    layoutPass (l1 ++ l2) = layoutPass l1 ++ layoutPass l2 := by
  simp [layoutPass]

theorem layoutPass_cons (e : DesignItem) (l : List DesignItem) :
    layoutPass (e :: l) = layoutEmit e ++ layoutPass l := by
  simp [layoutPass]

theorem storePass_cons (loader : Str → Option JsImage) (fresh : Nat → Str)
    (ctr : Nat) (e : DesignItem) (l : List DesignItem) :
    storePass loader fresh ctr (e :: l) =
      ⟨(storeStep loader fresh ctr e).1 ++
         (storePass loader fresh (storeStep loader fresh ctr e).2.2 l).script,
       (storeStep loader fresh ctr e).2.1 ::
         (storePass loader fresh (storeStep loader fresh ctr e).2.2 l).items,
       (storePass loader fresh (storeStep loader fresh ctr e).2.2 l).ctr⟩ := by
  simp [storePass]

/-- Claim C6, counterexample: a failed image element is not always free of
image-recall output.  `itemImgStale` is an image element whose fetch fails
(`loader0` rejects everything) but which already carries a stale
`data-dpl-name` attribute `OLD`; `print` still emits the recall command
`Y0002,0001,OLD` for it, contradicting the claim that a failed element
contributes no image-recall command. -/
theorem failed_image_recall_cex :
    (print loader0 fresh1 [itemImgStale]).1 =
      "\x02L\rD11\rY0002,0001,OLD\rE\r".toList := by
  decide

/-- Claim C6 as amended: when an image element's fetch or decode fails, the
translation does not abort — the failure is caught; that element contributes
no image-storage command and is left unmutated, and — provided the element
does not already carry a `data-dpl-name` attribute from an earlier call — no
image-recall command either, while every other element is still processed
and emitted (the output decomposes into the untouched contributions of the
preceding and following elements). -/
theorem failed_image_skipped :
    (∀ (loader : Str → Option JsImage) (fresh : Nat → Str) (ctr : Nat)
       (e : DesignItem) (s : Str),
      jsToLower e.elem.tagName = "zpl-image".toList →
      getAttribute e.elem ("src".toList) = some s → s ≠ [] → loader s = none →
      (storeStep loader fresh ctr e).1 = [] ∧ (storeStep loader fresh ctr e).2.1 = e) ∧
    (∀ e : DesignItem,
      jsToLower e.elem.tagName = "zpl-image".toList →
      getAttribute e.elem ("data-dpl-name".toList) = none →
      layoutEmit e = []) ∧
    (∀ (loader : Str → Option JsImage) (fresh : Nat → Str)
       (pre : List DesignItem) (e : DesignItem) (post : List DesignItem) (s : Str),
      jsToLower e.elem.tagName = "zpl-image".toList →
      getAttribute e.elem ("src".toList) = some s → s ≠ [] → loader s = none →
      getAttribute e.elem ("data-dpl-name".toList) = none →
      (print loader fresh (pre ++ e :: post)).1 =
        headerL ++ ((storePass loader fresh 0 pre).script ++
          (storePass loader fresh
            (chosenName fresh (storePass loader fresh 0 pre).ctr e.elem).2 post).script) ++
        (layoutPass (storePass loader fresh 0 pre).items ++
          layoutPass (storePass loader fresh
            (chosenName fresh (storePass loader fresh 0 pre).ctr e.elem).2 post).items) ++
        endL) := by
  refine ⟨?_, ?_, ?_⟩
  · intro loader fresh ctr e s htag hsrc hsne hload
    rw [storeStep_fail loader fresh ctr e s htag hsrc hsne hload]
    exact ⟨rfl, rfl⟩
  · intro e htag hname
    exact layoutEmit_no_name e htag hname
  · intro loader fresh pre e post s htag hsrc hsne hload hname
    have hstep := storeStep_fail loader fresh (storePass loader fresh 0 pre).ctr e s
      htag hsrc hsne hload
    have hle := layoutEmit_no_name e htag hname
    have hprint : (print loader fresh (pre ++ e :: post)).1 =
        headerL ++ (storePass loader fresh 0 (pre ++ e :: post)).script ++
          layoutPass (storePass loader fresh 0 (pre ++ e :: post)).items ++ endL := rfl
    rw [hprint, storePass_append loader fresh pre (e :: post) 0, storePass_cons, hstep]
    simp [layoutPass_append, layoutPass_cons, hle, List.append_assoc]

/-- Witness for `failed_image_skipped`: the failing image element
`itemImgFail` between two text elements contributes nothing, while both text
emissions survive. -/
theorem failed_image_skipped_witness :
    ((storeStep loader0 fresh1 0 itemImgFail).1 = [] ∧
      (storeStep loader0 fresh1 0 itemImgFail).2.1 = itemImgFail) ∧
    layoutEmit itemImgFail = [] ∧
    (print loader0 fresh1 ([itemText] ++ itemImgFail :: [itemText])).1 =
      headerL ++ ((storePass loader0 fresh1 0 [itemText]).script ++
        (storePass loader0 fresh1
          (chosenName fresh1 (storePass loader0 fresh1 0 [itemText]).ctr itemImgFail.elem).2
          [itemText]).script) ++
      (layoutPass (storePass loader0 fresh1 0 [itemText]).items ++
        layoutPass (storePass loader0 fresh1
          (chosenName fresh1 (storePass loader0 fresh1 0 [itemText]).ctr itemImgFail.elem).2
          [itemText]).items) ++
      endL := by
  refine ⟨failed_image_skipped.1 loader0 fresh1 0 itemImgFail ("BAD".toList)
      (by decide) (by decide) (by decide) rfl,
    failed_image_skipped.2.1 itemImgFail (by decide) (by decide),
    failed_image_skipped.2.2 loader0 fresh1 [itemText] itemImgFail [itemText]
      ("BAD".toList) (by decide) (by decide) (by decide) rfl (by decide)⟩

/-- Claim C10: `print` mutates its input exactly as claimed — the item
sequence it returns is the image-storage pass's rewrite of the input
(persisting after the call, and read by the layout pass); a successfully
loaded and encoded image element has its `data-dpl-name` attribute set to
the chosen logical name; an image element whose load fails, and every
non-image element, is returned unchanged. -/
theorem print_mutation_spec :
    (∀ (loader : Str → Option JsImage) (fresh : Nat → Str) (items : List DesignItem),
      (print loader fresh items).2 = (storePass loader fresh 0 items).items) ∧
    (∀ (loader : Str → Option JsImage) (fresh : Nat → Str) (ctr : Nat)
       (e : DesignItem) (s : Str) (img : JsImage),
      jsToLower e.elem.tagName = "zpl-image".toList →
      getAttribute e.elem ("src".toList) = some s → s ≠ [] → loader s = some img →
      (storeStep loader fresh ctr e).2.1 =
        { e with elem := (setAttribute e.elem ("data-dpl-name".toList)
            (chosenName fresh ctr e.elem).1) }) ∧
    (∀ (loader : Str → Option JsImage) (fresh : Nat → Str) (ctr : Nat)
       (e : DesignItem) (s : Str),
      jsToLower e.elem.tagName = "zpl-image".toList →
      getAttribute e.elem ("src".toList) = some s → s ≠ [] → loader s = none →
      (storeStep loader fresh ctr e).2.1 = e) ∧
    (∀ (loader : Str → Option JsImage) (fresh : Nat → Str) (ctr : Nat)
       (e : DesignItem),
      ¬(jsToLower e.elem.tagName = "zpl-image".toList) →
      storeStep loader fresh ctr e = ([], e, ctr)) ∧
    (∀ (loader : Str → Option JsImage) (fresh : Nat → Str)
       (pre : List DesignItem) (e : DesignItem) (post : List DesignItem),
      (print loader fresh (pre ++ e :: post)).2 =
        (storePass loader fresh 0 pre).items ++
          (storeStep loader fresh (storePass loader fresh 0 pre).ctr e).2.1 ::
          (storePass loader fresh
            (storeStep loader fresh (storePass loader fresh 0 pre).ctr e).2.2 post).items) := by
  refine ⟨fun _ _ _ => rfl, ?_, ?_, ?_, ?_⟩
  · intro loader fresh ctr e s img htag hsrc hsne hload
    rw [storeStep_success loader fresh ctr e s img htag hsrc hsne hload]
  · intro loader fresh ctr e s htag hsrc hsne hload
    rw [storeStep_fail loader fresh ctr e s htag hsrc hsne hload]
  · intro loader fresh ctr e htag
    exact storeStep_nonimage loader fresh ctr e htag
  · intro loader fresh pre e post
    have hprint : (print loader fresh (pre ++ e :: post)).2 =
        (storePass loader fresh 0 (pre ++ e :: post)).items := rfl
    rw [hprint, storePass_append loader fresh pre (e :: post) 0, storePass_cons]

/-- Witness for `print_mutation_spec`: the returned items are the pass-one
rewrite; `itemImgOk` (successful load) gains `data-dpl-name = LOGO`;
`itemImgFail` (failed load) and the text element are returned unchanged. -/
theorem print_mutation_spec_witness :
    (print loader1 fresh1 [itemText]).2 = (storePass loader1 fresh1 0 [itemText]).items ∧
    (storeStep loader1 fresh1 0 itemImgOk).2.1 =
      { itemImgOk with elem := (setAttribute itemImgOk.elem ("data-dpl-name".toList)
          (chosenName fresh1 0 itemImgOk.elem).1) } ∧
    (storeStep loader1 fresh1 0 itemImgFail).2.1 = itemImgFail ∧
    storeStep loader1 fresh1 0 itemText = ([], itemText, 0) := by
  refine ⟨print_mutation_spec.1 loader1 fresh1 [itemText],
    print_mutation_spec.2.1 loader1 fresh1 0 itemImgOk ("IMGSRC".toList) img0
      (by decide) (by decide) (by decide) rfl,
    print_mutation_spec.2.2.1 loader1 fresh1 0 itemImgFail ("BAD".toList)
      (by decide) (by decide) (by decide) rfl,
    print_mutation_spec.2.2.2.1 loader1 fresh1 0 itemText (by decide)⟩
